import Mathlib

/-!
# Verification of the claude-agent webhook-to-job dispatcher

Shallow embedding of the `server` crate of the claude-agent repository:
event trigger predicates (GitLab / GitHub / Sentry / Jira), the GitLab
auth-header builder, the HMAC signature verifiers, the Redis-backed job
queue (at the level of JSON values), the scheduler's job naming, and the
Jira OAuth token manager's refresh algorithm.

Machine integers are modelled as `Nat`/`Int` with explicit `% 2^w` where
overflow matters.  Rust `String`s are modelled as Lean `String`s; Rust's
byte-length `len()` is modelled by UTF-8 byte size.  External effects
(Redis, Kubernetes, HTTP) are modelled by explicit state passing plus an
oracle record for outcomes the environment chooses.
-/

namespace ClaudeAgent

/-! ## String helpers

`strContainsSub s pat` models Rust's `str::contains(pat)`: some contiguous
substring of `s` equals `pat`. -/

def strContainsSub (s pat : String) : Bool :=
  s.data.tails.any (fun t => pat.data.isPrefixOf t)

/-- Model of Rust `str::to_lowercase` (per-char lowercasing). -/
def strToLower (s : String) : String :=
  ⟨s.data.map Char.toLower⟩

/-- UTF-8 byte length, the model of Rust's `str::len()`. -/
def utf8Len (s : String) : Nat :=
  s.data.foldl (fun n c => n + c.utf8Size) 0

/-- Model of Rust's `str::starts_with`. -/
def strStartsWith (s pre : String) : Bool :=
  pre.data.isPrefixOf s.data

/-- Model of Rust's `str::strip_prefix`: the remainder after the lead, or
`None` when `s` does not start with it. -/
def strStripPre (s pre : String) : Option String :=
  if pre.data.isPrefixOf s.data then some ⟨s.data.drop pre.data.length⟩
  else none

/-! ## Sentry: `sentry.rs` -/

/-- `sentry.rs`: `struct SentryProject`. -/
structure SentryProject where
  id : String
  slug : String
  name : String
deriving DecidableEq, Repr

/-- `sentry.rs`: `struct Issue` (Sentry issue inside the webhook event). -/
structure Issue where
  id : String
  short_id : String
  title : String
  culprit : String
  platform : String
  status : String
  substatus : Option String
  issue_type : Option String
  issue_category : Option String
  first_seen : String
  last_seen : String
  web_url : Option String
  project : SentryProject
deriving DecidableEq, Repr

/-- `sentry.rs`: `struct IssueData`. -/
structure IssueData where
  issue : Issue
deriving DecidableEq, Repr

/-- `sentry.rs`: `struct Actor`. -/
structure Actor where
  actor_type : String
  id : Option String
  name : Option String
deriving DecidableEq, Repr

/-- `sentry.rs`: `struct Installation`. -/
structure Installation where
  uuid : String
deriving DecidableEq, Repr

/-- `sentry.rs`: `struct SentryWebhookEvent`. -/
structure SentryWebhookEvent where
  action : String
  installation : Installation
  data : IssueData
  actor : Actor
deriving DecidableEq, Repr

/-- `sentry.rs`: `SentryWebhookEvent::should_fix`. -/
def SentryWebhookEvent.should_fix (e : SentryWebhookEvent) : Bool :=
  if e.action = "created" ∨ e.action = "unresolved" then
    match e.data.issue.issue_category with
    | some category =>
      if category = "performance" ∨ category = "cron" ∨ category = "replay"
          ∨ category = "feedback" ∨ category = "uptime" then false else true
    | none => true
  else false

/-! ## GitLab auth headers: `gitlab.rs` -/

/-- A character acceptable in an HTTP header value: `http::HeaderValue::from_str`
accepts exactly the byte values 0x09 and 0x20..=0xFF except 0x7F.  In UTF-8,
every byte of a multi-byte encoding is ≥ 0x80, so per-character checking is
equivalent to the byte-level check. -/
def validHeaderChar (c : Char) : Bool :=
  c = '\t' ∨ (32 ≤ c.toNat ∧ c.toNat ≠ 127)

/-- Whether `HeaderValue::from_str` succeeds on `s`. -/
def validHeaderValue (s : String) : Bool :=
  s.data.all validHeaderChar

/-- `gitlab.rs`: `gitlab_auth_headers`.  Returns the header list, or `none`
for the `Err` case (a token that is not a valid header value).
`token.len()` in the source is the UTF-8 byte length. -/
def gitlab_auth_headers (token : String) : Option (List (String × String)) :=
  if strStartsWith token "glpat-" ∨ utf8Len token < 50 then
    if validHeaderValue token then some [("PRIVATE-TOKEN", token)] else none
  else
    if validHeaderValue ("Bearer " ++ token) then
      some [("Authorization", "Bearer " ++ token)]
    else none

/-! ## GitLab merge-request events: `gitlab.rs` -/

/-- `gitlab.rs`: `struct User`. -/
structure GitlabUser where
  id : Int
  name : String
  username : String
  email : Option String
deriving DecidableEq, Repr

/-- `gitlab.rs`: `struct Project`. -/
structure GitlabProject where
  id : Int
  name : String
  path_with_namespace : String
  web_url : String
  git_http_url : Option String
  git_ssh_url : Option String
  default_branch : Option String
deriving DecidableEq, Repr

/-- `gitlab.rs`: `struct MergeRequestAttributes`. -/
structure MergeRequestAttributes where
  id : Int
  iid : Int
  title : String
  description : Option String
  source_branch : String
  target_branch : String
  state : String
  action : Option String
  draft : Option Bool
  work_in_progress : Option Bool
  url : String
  author_id : Int
deriving DecidableEq, Repr

/-- `gitlab.rs`: `struct Label`. -/
structure Label where
  id : Int
  title : String
deriving DecidableEq, Repr

/-- `gitlab.rs`: `struct Change`. -/
structure Change where
  previous : Option String
  current : Option String
deriving DecidableEq, Repr

/-- `gitlab.rs`: `struct LabelsChange`. -/
structure LabelsChange where
  previous : Option (List Label)
  current : Option (List Label)
deriving DecidableEq, Repr

/-- `gitlab.rs`: `struct Changes`. -/
structure Changes where
  title : Option Change
  description : Option Change
  labels : Option LabelsChange
deriving DecidableEq, Repr

/-- `gitlab.rs`: `struct Repository`. -/
structure GitlabRepository where
  name : String
  url : String
  homepage : Option String
deriving DecidableEq, Repr

/-- `gitlab.rs`: `struct MergeRequestEvent`. -/
structure MergeRequestEvent where
  object_kind : String
  event_type : Option String
  user : GitlabUser
  project : GitlabProject
  object_attributes : MergeRequestAttributes
  labels : Option (List Label)
  changes : Option Changes
  repository : Option GitlabRepository
deriving DecidableEq, Repr

/-- `gitlab.rs`: `MergeRequestEvent::should_review`. -/
def MergeRequestEvent.should_review (e : MergeRequestEvent) : Bool :=
  if e.object_kind ≠ "merge_request" then false
  else
    let attrs := e.object_attributes
    if attrs.state ≠ "opened" ∧ attrs.state ≠ "reopened" then false
    else if attrs.draft.getD false ∨ attrs.work_in_progress.getD false then false
    else
      match attrs.action with
      | some "open" | some "update" | some "reopen" => true
      | _ => false

/-- `gitlab.rs`: `MergeRequestEvent::has_label`. -/
def MergeRequestEvent.has_label (e : MergeRequestEvent) (label_name : String) : Bool :=
  (e.labels.map (fun labels => labels.any (fun l => l.title = label_name))).getD false

/-- Outcome of the merge-request webhook handler (the `status` of its
response). -/
inductive MrOutcome where
  | ignored
  | skipped
  | queued
deriving DecidableEq, Repr

/-- `webhook/gitlab.rs`: the decision logic of `handle_merge_request_event`
(after a successful parse): ignore non-qualifying events, answer `skipped`
for MRs carrying the `skip-review` label, otherwise enqueue. -/
def handle_merge_request_event (e : MergeRequestEvent) : MrOutcome :=
  if ¬ e.should_review then .ignored
  else if e.has_label "skip-review" then .skipped
  else .queued

/-! ## GitHub pull-request events: `github.rs` -/

/-- `github.rs`: `struct User`. -/
structure GithubUser where
  id : Nat
  login : String
deriving DecidableEq, Repr

/-- `github.rs`: `struct RefRepo`. -/
structure RefRepo where
  full_name : String
  clone_url : String
deriving DecidableEq, Repr

/-- `github.rs`: `struct GitRef`. -/
structure GitRef where
  ref_name : String
  sha : String
  repo : Option RefRepo
deriving DecidableEq, Repr

/-- `github.rs`: `struct Repository`. -/
structure GithubRepository where
  id : Nat
  name : String
  full_name : String
  clone_url : String
  html_url : String
  default_branch : Option String
deriving DecidableEq, Repr

/-- `github.rs`: `struct PullRequest`. -/
structure PullRequest where
  id : Nat
  number : Nat
  title : String
  body : Option String
  state : String
  draft : Option Bool
  user : GithubUser
  head : GitRef
  base : GitRef
  html_url : String
deriving DecidableEq, Repr

/-- `github.rs`: `struct PullRequestEvent`. -/
structure PullRequestEvent where
  action : String
  number : Nat
  pull_request : PullRequest
  repository : GithubRepository
  sender : GithubUser
deriving DecidableEq, Repr

/-- `github.rs`: `PullRequestEvent::should_review`. -/
def PullRequestEvent.should_review (e : PullRequestEvent) : Bool :=
  if ¬ (e.action = "opened" ∨ e.action = "synchronize" ∨ e.action = "reopened") then
    false
  else if e.pull_request.draft.getD false then false
  else true

/-- `github.rs`: `PullRequestEvent::review_action` (maps the GitHub action to
the internal action name). -/
def PullRequestEvent.review_action (e : PullRequestEvent) : String :=
  match e.action with
  | "opened" => "open"
  | "reopened" => "reopen"
  | "synchronize" => "update"
  | other => other

/-- `gitlab.rs`: `struct ReviewPayload`, the Review job envelope.  The
current struct carries the optional trigger-comment text: the handlers in
`webhook/` (`webhook/github.rs`, `webhook/gitlab.rs`) construct and assign
the `trigger_comment` field. -/
structure ReviewPayload where
  gitlab_url : String
  project : String
  mr_iid : String
  clone_url : String
  source_branch : String
  target_branch : String
  title : String
  description : Option String
  author : String
  action : String
  platform : String
  trigger_comment : Option String
deriving DecidableEq, Repr

/-- `github.rs`: `impl From<&PullRequestEvent> for ReviewPayload`. -/
def PullRequestEvent.toReviewPayload (e : PullRequestEvent) : ReviewPayload where
  gitlab_url := ""
  project := e.repository.full_name
  mr_iid := toString e.pull_request.number
  clone_url := e.repository.clone_url
  source_branch := e.pull_request.head.ref_name
  target_branch := e.pull_request.base.ref_name
  title := e.pull_request.title
  description := e.pull_request.body
  author := e.pull_request.user.login
  action := e.review_action
  platform := "github"
  trigger_comment := none

/-- Outcome of the GitHub webhook handler for a parsed `pull_request`
event. -/
inductive GithubOutcome where
  | ignored
  | queued (payload : ReviewPayload)
deriving DecidableEq, Repr

/-- `webhook/github.rs`: the decision logic of `github_webhook_handler` once
the signature is verified, the event type is `pull_request` and the body
parsed: ignore non-qualifying events, otherwise enqueue
`ReviewPayload::from(&event)`. -/
def github_webhook_handler (e : PullRequestEvent) : GithubOutcome :=
  if ¬ e.should_review then .ignored
  else .queued e.toReviewPayload

/-! ## JSON values

`serde_json::Value`, with objects as association lists (first binding wins
on lookup; all objects produced by the code have distinct keys). -/

inductive Json where
  | null
  | bool (b : Bool)
  | num (n : Int)
  | str (s : String)
  | arr (elements : List Json)
  | obj (fields : List (String × Json))
deriving Repr

/-- `serde_json::Value::get` with a string key: object field lookup, `None`
on any other value. -/
def Json.getField : Json → String → Option Json
  | .obj fields, key => fields.lookup key
  | _, _ => none

theorem sizeOf_lookup_lt (fields : List (String × Json)) (key : String)
    (v : Json) (h : fields.lookup key = some v) :
    sizeOf v < 1 + sizeOf fields := by
  induction fields with
  | nil => simp [List.lookup] at h
  | cons head tail ih =>
    rcases head with ⟨k, w⟩
    by_cases hb : key == k
    · simp [List.lookup, hb] at h
      subst h
      simp
      omega
    · simp only [List.lookup, hb] at h
      have := ih h
      simp
      omega

theorem sizeOf_getField_lt (j : Json) (key : String) (v : Json)
    (h : j.getField key = some v) : sizeOf v < sizeOf j := by
  cases j with
  | obj fields =>
    simp only [Json.getField] at h
    have := sizeOf_lookup_lt fields key v h
    simp
    omega
  | null => simp [Json.getField] at h
  | bool b => simp [Json.getField] at h
  | num n => simp [Json.getField] at h
  | str s => simp [Json.getField] at h
  | arr xs => simp [Json.getField] at h

theorem sizeOf_mem_arr_lt (xs : List Json) (x : Json) (h : x ∈ xs) :
    sizeOf x < sizeOf (Json.arr xs) := by
  have := List.sizeOf_lt_of_mem h
  simp
  omega

theorem sizeOf_content_elem_lt (fields : List (String × Json))
    (content : List Json) (x : Json)
    (h : fields.lookup "content" = some (Json.arr content)) (hx : x ∈ content) :
    sizeOf x < sizeOf (Json.obj fields) := by
  have h1 := List.sizeOf_lt_of_mem hx
  have h2 := sizeOf_lookup_lt fields "content" _ h
  simp at h2 ⊢
  omega

/-- The `obj.get("type").and_then(|v| v.as_str()) == Some("mention")` test
of `extract_text_from_adf`. -/
def isMentionType (fields : List (String × Json)) : Bool :=
  match fields.lookup "type" with
  | some (.str t) => t = "mention"
  | _ => false

/-! ## Jira events and ADF mention detection: `jira.rs` -/

/-- `jira.rs`: `BOT_MENTION`. -/
def BOT_MENTION : String := "@claude-agent"

/-- `jira.rs`: `BOT_ACCOUNT_ID`. -/
def BOT_ACCOUNT_ID : String := "712020:8218f147-a7bd-4843-b5d3-0b2b01212bb2"

/-- `jira.rs`: `extract_text_from_adf`.  For an object: the `text` field if
it is a string, then for `type = "mention"` nodes the `attrs.text` string,
then the recursively extracted text of the `content` array, concatenated in
that order.  Arrays concatenate their elements' extractions; everything else
extracts to the empty string. -/
def extract_text_from_adf (v : Json) : String :=
  match v with
  | .str s => s
  | .obj fields =>
    let t1 := match fields.lookup "text" with
      | some (.str t) => t
      | _ => ""
    let t2 :=
      if isMentionType fields then
        match fields.lookup "attrs" with
        | some attrs =>
          match attrs.getField "text" with
          | some (.str s) => s
          | _ => ""
        | none => ""
      else ""
    let t3 := match h : fields.lookup "content" with
      | some (.arr content) =>
        (content.attach.map (fun x => extract_text_from_adf x.1)).foldl (· ++ ·) ""
      | _ => ""
    t1 ++ t2 ++ t3
  | .arr xs => (xs.attach.map (fun x => extract_text_from_adf x.1)).foldl (· ++ ·) ""
  | _ => ""
termination_by sizeOf v
decreasing_by
  · exact sizeOf_content_elem_lt fields content x.1 h x.2
  · exact sizeOf_mem_arr_lt xs x.1 x.2

/-- `jira.rs`: `struct JiraUser`. -/
structure JiraUser where
  account_id : Option String
  display_name : Option String
  email_address : Option String
deriving DecidableEq, Repr

/-- `jira.rs`: `struct JiraComment` (the `body` is raw JSON: ADF in Jira
Cloud, or a plain string). -/
structure JiraComment where
  id : String
  body : Json
  author : Option JiraUser
  created : Option String
  updated : Option String
deriving Repr

/-- `jira.rs`: `JiraComment::body_as_text`. -/
def JiraComment.body_as_text (c : JiraComment) : String :=
  extract_text_from_adf c.body

/-- `jira.rs`: `JiraComment::mentions_bot`. -/
def JiraComment.mentions_bot (c : JiraComment) : Bool :=
  let text := c.body_as_text
  strContainsSub (strToLower text) (strToLower BOT_MENTION)
    ∨ strContainsSub text BOT_ACCOUNT_ID

/-- `jira.rs`: `struct JiraIssueType`. -/
structure JiraIssueType where
  name : String
deriving DecidableEq, Repr

/-- `jira.rs`: `struct JiraProject`. -/
structure JiraProject where
  key : String
  name : String
deriving DecidableEq, Repr

/-- `jira.rs`: `struct JiraPriority`. -/
structure JiraPriority where
  name : String
deriving DecidableEq, Repr

/-- `jira.rs`: `struct JiraStatus`. -/
structure JiraStatus where
  name : String
deriving DecidableEq, Repr

/-- `jira.rs`: `struct JiraIssueFields`. -/
structure JiraIssueFields where
  summary : String
  description : Option Json
  issue_type : Option JiraIssueType
  project : Option JiraProject
  priority : Option JiraPriority
  status : Option JiraStatus
  reporter : Option JiraUser
  assignee : Option JiraUser
  labels : List String
deriving Repr

/-- `jira.rs`: `struct JiraIssue`. -/
structure JiraIssue where
  id : String
  key : String
  self_url : String
  fields : JiraIssueFields
deriving Repr

/-- `jira.rs`: `struct JiraWebhookEvent`. -/
structure JiraWebhookEvent where
  webhook_event : String
  issue : JiraIssue
  comment : Option JiraComment
  user : Option JiraUser
deriving Repr

/-- `jira.rs`: `JiraWebhookEvent::should_trigger`. -/
def JiraWebhookEvent.should_trigger (e : JiraWebhookEvent) : Bool :=
  if ¬ strStartsWith e.webhook_event "comment_" then false
  else
    match e.comment with
    | some comment => comment.mentions_bot
    | none => false

/-- The original claim's account-id check: the body JSON, recursively
traversed, contains `pat` as a substring of some string leaf. -/
def jsonContainsSub (v : Json) (pat : String) : Bool :=
  match v with
  | .str s => strContainsSub s pat
  | .arr [] => false
  | .arr (x :: xs) => jsonContainsSub x pat || jsonContainsSub (.arr xs) pat
  | .obj [] => false
  | .obj ((_, w) :: fs) =>
    jsonContainsSub w pat || jsonContainsSub (.obj fs) pat
  | _ => false
termination_by sizeOf v
decreasing_by
  all_goals simp
  all_goals omega

/-- Modelled from the spec (§8 mention detection): the list of all plain
`text` leaves and all `mention.attrs.text` values of an ADF document,
collected recursively in document order. -/
def specTextPieces (v : Json) : List String :=
  match v with
  | .str s => [s]
  | .obj fields =>
    (match fields.lookup "text" with
      | some (.str t) => [t]
      | _ => []) ++
    (if isMentionType fields then
        match fields.lookup "attrs" with
        | some attrs =>
          match attrs.getField "text" with
          | some (.str s) => [s]
          | _ => []
        | none => []
      else []) ++
    (match h : fields.lookup "content" with
      | some (.arr content) =>
        (content.attach.map (fun x => specTextPieces x.1)).flatten
      | _ => [])
  | .arr xs => (xs.attach.map (fun x => specTextPieces x.1)).flatten
  | _ => []
termination_by sizeOf v
decreasing_by
  · exact sizeOf_content_elem_lt fields content x.1 h x.2
  · exact sizeOf_mem_arr_lt xs x.1 x.2

/-- Modelled from the spec (§8 mention detection): the concatenation of the
collected text pieces. -/
def specExtractedText (v : Json) : String :=
  String.join (specTextPieces v)

/-! ## Job payloads: `payload.rs` -/

/-- `payload.rs`: `struct SentryFixPayload`. -/
structure SentryFixPayload where
  issue_id : String
  short_id : String
  title : String
  culprit : String
  platform : String
  issue_type : String
  issue_category : String
  web_url : String
  project_slug : String
  organization : String
  clone_url : String
  target_branch : String
  vcs_platform : String
  vcs_project : String
deriving DecidableEq, Repr

/-- `payload.rs`: `struct JiraTicketPayload`. -/
structure JiraTicketPayload where
  issue_key : String
  issue_id : String
  summary : String
  description : Option String
  issue_type : String
  priority : Option String
  status : String
  labels : List String
  web_url : String
  jira_base_url : String
  trigger_comment : String
  trigger_author : Option String
  clone_url : String
  target_branch : String
  vcs_platform : String
  vcs_project : String
deriving DecidableEq, Repr

/-- `payload.rs`: `enum JobPayload`. -/
inductive JobPayload where
  | review (p : ReviewPayload)
  | sentryFix (p : SentryFixPayload)
  | jiraTicket (p : JiraTicketPayload)
deriving DecidableEq, Repr

/-- `payload.rs`: `JobPayload::issue_id` ("Get the issue/MR ID for job
naming"). -/
def JobPayload.issue_id : JobPayload → String
  | .review p => p.mr_iid
  | .sentryFix p => p.short_id
  | .jiraTicket p => p.issue_key

/-- `payload.rs`: `JobPayload::job_prefix` ("Get job name prefix"). -/
def JobPayload.jobPrefixStr : JobPayload → String
  | .review _ => "claude-review"
  | .sentryFix _ => "claude-sentry"
  | .jiraTicket _ => "claude-jira"

/-! ### serde serialization of payloads

`JobPayload` serializes internally tagged (`#[serde(tag = "type")]`) with
variant names `review`, `sentry_fix`, `jira_ticket`; `Option` fields
serialize as `null` when `None`; fields appear in declaration order. -/

/-- serde serialization of an `Option<String>` field value. -/
def serOptStr : Option String → Json
  | some s => .str s
  | none => .null

/-- serde serialization of `ReviewPayload`'s fields (in declaration order). -/
def serReviewFields (p : ReviewPayload) : List (String × Json) :=
  [("gitlab_url", .str p.gitlab_url),
   ("project", .str p.project),
   ("mr_iid", .str p.mr_iid),
   ("clone_url", .str p.clone_url),
   ("source_branch", .str p.source_branch),
   ("target_branch", .str p.target_branch),
   ("title", .str p.title),
   ("description", serOptStr p.description),
   ("author", .str p.author),
   ("action", .str p.action),
   ("platform", .str p.platform),
   ("trigger_comment", serOptStr p.trigger_comment)]

/-- serde serialization of `SentryFixPayload`'s fields. -/
def serSentryFixFields (p : SentryFixPayload) : List (String × Json) :=
  [("issue_id", .str p.issue_id),
   ("short_id", .str p.short_id),
   ("title", .str p.title),
   ("culprit", .str p.culprit),
   ("platform", .str p.platform),
   ("issue_type", .str p.issue_type),
   ("issue_category", .str p.issue_category),
   ("web_url", .str p.web_url),
   ("project_slug", .str p.project_slug),
   ("organization", .str p.organization),
   ("clone_url", .str p.clone_url),
   ("target_branch", .str p.target_branch),
   ("vcs_platform", .str p.vcs_platform),
   ("vcs_project", .str p.vcs_project)]

/-- serde serialization of `JiraTicketPayload`'s fields. -/
def serJiraTicketFields (p : JiraTicketPayload) : List (String × Json) :=
  [("issue_key", .str p.issue_key),
   ("issue_id", .str p.issue_id),
   ("summary", .str p.summary),
   ("description", serOptStr p.description),
   ("issue_type", .str p.issue_type),
   ("priority", serOptStr p.priority),
   ("status", .str p.status),
   ("labels", .arr (p.labels.map .str)),
   ("web_url", .str p.web_url),
   ("jira_base_url", .str p.jira_base_url),
   ("trigger_comment", .str p.trigger_comment),
   ("trigger_author", serOptStr p.trigger_author),
   ("clone_url", .str p.clone_url),
   ("target_branch", .str p.target_branch),
   ("vcs_platform", .str p.vcs_platform),
   ("vcs_project", .str p.vcs_project)]

/-- serde serialization of `JobPayload` (internally tagged by `type`). -/
def serJobPayload : JobPayload → Json
  | .review p => .obj (("type", .str "review") :: serReviewFields p)
  | .sentryFix p => .obj (("type", .str "sentry_fix") :: serSentryFixFields p)
  | .jiraTicket p => .obj (("type", .str "jira_ticket") :: serJiraTicketFields p)

/-! ### serde deserialization of payloads -/

/-- serde: a required `String` field. -/
def getStr (j : Json) (key : String) : Option String :=
  match j.getField key with
  | some (.str s) => some s
  | _ => none

/-- serde: an `Option<String>` field (absent or `null` is `None`; any other
non-string value is an error). -/
def getOptStr (j : Json) (key : String) : Option (Option String) :=
  match j.getField key with
  | none => some none
  | some .null => some none
  | some (.str s) => some (some s)
  | some _ => none

/-- serde: a `String` field with a `#[serde(default = ...)]` function
(the default applies only when the field is absent; a present non-string
value, `null` included, is an error). -/
def getStrD (j : Json) (key dflt : String) : Option String :=
  match j.getField key with
  | none => some dflt
  | some (.str s) => some s
  | some _ => none

/-- A JSON string leaf, or an error. -/
def jsonAsStr : Json → Option String
  | .str s => some s
  | _ => none

/-- Sequential parse of a JSON array of strings (an error on the first
non-string element). -/
def mapJsonStrs : List Json → Option (List String)
  | [] => some []
  | x :: xs => do
    let s ← jsonAsStr x
    let rest ← mapJsonStrs xs
    pure (s :: rest)

/-- serde: a required `Vec<String>` field. -/
def getStrList (j : Json) (key : String) : Option (List String) :=
  match j.getField key with
  | some (.arr xs) => mapJsonStrs xs
  | _ => none

/-- serde deserialization of `ReviewPayload` (derive semantics: required
fields must be present; `action` and `platform` carry defaults `"open"` and
`"gitlab"`; unknown fields are ignored). -/
def parseReviewPayload (j : Json) : Option ReviewPayload := do
  let gitlab_url ← getStr j "gitlab_url"
  let project ← getStr j "project"
  let mr_iid ← getStr j "mr_iid"
  let clone_url ← getStr j "clone_url"
  let source_branch ← getStr j "source_branch"
  let target_branch ← getStr j "target_branch"
  let title ← getStr j "title"
  let description ← getOptStr j "description"
  let author ← getStr j "author"
  let action ← getStrD j "action" "open"
  let platform ← getStrD j "platform" "gitlab"
  let trigger_comment ← getOptStr j "trigger_comment"
  pure ⟨gitlab_url, project, mr_iid, clone_url, source_branch, target_branch,
        title, description, author, action, platform, trigger_comment⟩

/-- serde deserialization of `SentryFixPayload`. -/
def parseSentryFixPayload (j : Json) : Option SentryFixPayload := do
  let issue_id ← getStr j "issue_id"
  let short_id ← getStr j "short_id"
  let title ← getStr j "title"
  let culprit ← getStr j "culprit"
  let platform ← getStr j "platform"
  let issue_type ← getStr j "issue_type"
  let issue_category ← getStr j "issue_category"
  let web_url ← getStr j "web_url"
  let project_slug ← getStr j "project_slug"
  let organization ← getStr j "organization"
  let clone_url ← getStr j "clone_url"
  let target_branch ← getStr j "target_branch"
  let vcs_platform ← getStr j "vcs_platform"
  let vcs_project ← getStr j "vcs_project"
  pure ⟨issue_id, short_id, title, culprit, platform, issue_type,
        issue_category, web_url, project_slug, organization, clone_url,
        target_branch, vcs_platform, vcs_project⟩

/-- serde deserialization of `JiraTicketPayload`. -/
def parseJiraTicketPayload (j : Json) : Option JiraTicketPayload := do
  let issue_key ← getStr j "issue_key"
  let issue_id ← getStr j "issue_id"
  let summary ← getStr j "summary"
  let description ← getOptStr j "description"
  let issue_type ← getStr j "issue_type"
  let priority ← getOptStr j "priority"
  let status ← getStr j "status"
  let labels ← getStrList j "labels"
  let web_url ← getStr j "web_url"
  let jira_base_url ← getStr j "jira_base_url"
  let trigger_comment ← getStr j "trigger_comment"
  let trigger_author ← getOptStr j "trigger_author"
  let clone_url ← getStr j "clone_url"
  let target_branch ← getStr j "target_branch"
  let vcs_platform ← getStr j "vcs_platform"
  let vcs_project ← getStr j "vcs_project"
  pure ⟨issue_key, issue_id, summary, description, issue_type, priority,
        status, labels, web_url, jira_base_url, trigger_comment,
        trigger_author, clone_url, target_branch, vcs_platform, vcs_project⟩

/-- `payload.rs`: the custom `impl Deserialize for JobPayload`: if the value
has a `type` field, dispatch on its (string) tag; otherwise fall back to the
legacy untagged `ReviewPayload` parse. -/
def parseJobPayload (j : Json) : Option JobPayload :=
  match j.getField "type" with
  | some tag =>
    match tag with
    | .str "review" => (parseReviewPayload j).map .review
    | .str "sentry_fix" => (parseSentryFixPayload j).map .sentryFix
    | .str "jira_ticket" => (parseJiraTicketPayload j).map .jiraTicket
    | _ => none
  | none => (parseReviewPayload j).map .review

/-! ## The job queue: `queue.rs`

The Redis store is modelled at the level of JSON values: the `pending` and
`failed` keys hold lists of serialized items, `processing` holds an
association of item ids to serialized items.  The text layer
(`serde_json::to_string` / `from_str`) is a bijection between JSON texts
and these values.  `chrono` timestamps are modelled as opaque strings. -/

/-- `queue.rs`: `struct QueueItem`.  `attempts` is a `u32`, modelled as a
`Nat` with wrapping at `2^32` where it is incremented. -/
structure QueueItem where
  id : String
  payload : JobPayload
  created_at : String
  attempts : Nat
deriving DecidableEq, Repr

/-- serde serialization of a `QueueItem`. -/
def serQueueItem (item : QueueItem) : Json :=
  .obj [("id", .str item.id),
        ("payload", serJobPayload item.payload),
        ("created_at", .str item.created_at),
        ("attempts", .num item.attempts)]

/-- serde: a `u32` field. -/
def getU32 (j : Json) (key : String) : Option Nat :=
  match j.getField key with
  | some (.num n) => if 0 ≤ n ∧ n < 2 ^ 32 then some n.toNat else none
  | _ => none

/-- serde deserialization of a `QueueItem`. -/
def parseQueueItem (j : Json) : Option QueueItem := do
  let id ← getStr j "id"
  let payloadJson ← j.getField "payload"
  let payload ← parseJobPayload payloadJson
  let created_at ← getStr j "created_at"
  let attempts ← getU32 j "attempts"
  pure ⟨id, payload, created_at, attempts⟩

/-- `queue.rs`: `struct FailedItem`. -/
structure FailedItem where
  item : QueueItem
  error : String
  failed_at : String
deriving DecidableEq, Repr

/-- serde serialization of a `FailedItem`. -/
def serFailedItem (f : FailedItem) : Json :=
  .obj [("item", serQueueItem f.item),
        ("error", .str f.error),
        ("failed_at", .str f.failed_at)]

/-- serde deserialization of a `FailedItem`. -/
def parseFailedItem (j : Json) : Option FailedItem := do
  let itemJson ← j.getField "item"
  let item ← parseQueueItem itemJson
  let error ← getStr j "error"
  let failed_at ← getStr j "failed_at"
  pure ⟨item, error, failed_at⟩

/-- The three Redis keys of `queue.rs`, as a state record. -/
structure QueueState where
  pending : List Json
  processing : List (String × Json)
  failed : List Json
deriving Repr

/-- `queue.rs`: `Queue::push`.  The fresh UUID and creation timestamp are
passed explicitly (the code draws them from `uuid`/`chrono`); the new item
has `attempts = 0` and is right-pushed onto `pending`.  Returns the id. -/
def Queue.push (st : QueueState) (payload : JobPayload)
    (id created_at : String) : QueueState × String :=
  let item : QueueItem := ⟨id, payload, created_at, 0⟩
  ({ st with pending := st.pending ++ [serQueueItem item] }, id)

/-- Result of `Queue::pop`: timeout (`None`), a deserialized item, or a
panic of the consumer (`serde_json::from_str(&json).unwrap()` on a value
that does not deserialize). -/
inductive PopResult where
  | timeout
  | item (it : QueueItem)
  | panic
deriving Repr

/-- `queue.rs`: `Queue::pop` (blocking left-pop).  An empty pending list
models the `BLPOP` timeout. -/
def Queue.pop (st : QueueState) : PopResult × QueueState :=
  match st.pending with
  | [] => (.timeout, st)
  | j :: rest =>
    match parseQueueItem j with
    | some it => (.item it, { st with pending := rest })
    | none => (.panic, { st with pending := rest })

/-- `queue.rs`: `Queue::mark_processing` (`HSET processing id json`). -/
def Queue.mark_processing (st : QueueState) (item : QueueItem) : QueueState :=
  { st with processing :=
      (item.id, serQueueItem item) ::
        st.processing.filter (fun kv => kv.1 ≠ item.id) }

/-- `queue.rs`: `Queue::mark_completed` (`HDEL processing id`). -/
def Queue.mark_completed (st : QueueState) (id : String) : QueueState :=
  { st with processing := st.processing.filter (fun kv => kv.1 ≠ id) }

/-- `queue.rs`: `Queue::mark_failed`: remove from processing, increment the
item's `attempts` (`u32` wrapping), right-push the `FailedItem` onto the
failed list.  The failure timestamp is passed explicitly. -/
def Queue.mark_failed (st : QueueState) (item : QueueItem) (error : String)
    (failed_at : String) : QueueState :=
  let item' := { item with attempts := (item.attempts + 1) % 2 ^ 32 }
  { st with
      processing := st.processing.filter (fun kv => kv.1 ≠ item.id),
      failed := st.failed ++ [serFailedItem ⟨item', error, failed_at⟩] }

/-- The scan loop of `Queue::retry_failed`: walk the failed list in order;
entries that do not deserialize are skipped; the first entry whose item id
matches is removed and its inner `QueueItem` returned.  (`LREM 1` removes
the first occurrence of the matched serialized value; since the scan stops
at the first parse-and-id match, that occurrence is the matched entry
itself.) -/
def retryScan (id : String) : List Json → Option (List Json × QueueItem)
  | [] => none
  | j :: rest =>
    match parseFailedItem j with
    | some f =>
      if f.item.id = id then some (rest, f.item)
      else (retryScan id rest).map (fun r => (j :: r.1, r.2))
    | none => (retryScan id rest).map (fun r => (j :: r.1, r.2))

/-- `queue.rs`: `Queue::retry_failed`: on a match, the failed entry is
removed and its inner `QueueItem` is re-serialized and right-pushed onto
pending; returns whether a match was found. -/
def Queue.retry_failed (st : QueueState) (id : String) : QueueState × Bool :=
  match retryScan id st.failed with
  | some (failed', item) =>
    ({ st with failed := failed',
               pending := st.pending ++ [serQueueItem item] }, true)
  | none => (st, false)

/-! ## Scheduler job naming: `scheduler.rs` -/

/-- `scheduler.rs`: the job-name expression of `Scheduler::spawn_job`:
`format!("claude-review-{}-{}", item.payload.mr_iid, &item.id[..8])`.
`item.payload` is the `JobPayload` enum, which has an `mr_iid` field only
inside its `Review` variant, so the field access is well-typed only for
`Review` payloads; the embedding returns `none` where the source expression
is ill-typed.  `&item.id[..8]` takes the first 8 bytes of the UUID string
(ASCII), modelled by `String.take 8`. -/
def spawn_job_name (item : QueueItem) : Option String :=
  match item.payload with
  | .review p => some ("claude-review-" ++ p.mr_iid ++ "-" ++ item.id.take 8)
  | _ => none

/-- Modelled from the spec (§4.F step 4): the workload name
`{prefix}-{issue_id}-{uuid_prefix_8}` built from `JobPayload::job_prefix`
and `JobPayload::issue_id` of `payload.rs` ("Get the issue/MR ID for job
naming" / "Get job name prefix"). -/
def spec_job_name (item : QueueItem) : String :=
  JobPayload.jobPrefixStr item.payload ++ "-" ++
    JobPayload.issue_id item.payload ++ "-" ++ item.id.take 8

/-! ## HMAC signature verifiers: `github.rs`, `sentry.rs`, `jira.rs`

The verifiers are parameterized by the MAC function (the `hmac` crate's
`Hmac<Sha256>` is an external library); bodies and MAC outputs are byte
lists. -/

/-- Value of a hexadecimal digit character; `hex::decode` accepts both
cases. -/
def hexDigitVal (c : Char) : Option Nat :=
  if '0' ≤ c ∧ c ≤ '9' then some (c.toNat - 48)
  else if 'a' ≤ c ∧ c ≤ 'f' then some (c.toNat - 87)
  else if 'A' ≤ c ∧ c ≤ 'F' then some (c.toNat - 55)
  else none

/-- The lowercase hex digit for a value `< 16` (as emitted by
`hex::encode`). -/
def natToHexDigitChar (n : Nat) : Char :=
  if n < 10 then Char.ofNat (48 + n) else Char.ofNat (87 + n)

/-- `hex::encode` of one byte: two lowercase digits. -/
def hexEncodeByte (b : Nat) : List Char :=
  [natToHexDigitChar (b % 256 / 16), natToHexDigitChar (b % 16)]

/-- `hex::encode`. -/
def hexEncode (bs : List Nat) : String :=
  ⟨(bs.map hexEncodeByte).flatten⟩

/-- `hex::decode` on a character list: pairs of hex digits (either case);
odd length or a non-hex character is an error. -/
def hexDecodeChars : List Char → Option (List Nat)
  | [] => some []
  | a :: b :: rest =>
    match hexDigitVal a, hexDigitVal b, hexDecodeChars rest with
    | some hi, some lo, some r => some ((16 * hi + lo) :: r)
    | _, _, _ => none
  | [_] => none

/-- The decode-and-compare step of the GitHub/Sentry `verify_signature`:
`hex::decode` the stripped hex part and compare (`Mac::verify_slice`:
constant-time equality, length mismatch rejected) with the computed MAC
`tag`. -/
def github_check_hex (tag : List Nat) (sig_hex : String) : Bool :=
  match hexDecodeChars sig_hex.data with
  | some expected => tag == expected
  | none => false

/-- `github.rs`: `verify_signature`: strip the `sha256=` lead, then decode
and compare. -/
def github_verify_signature (mac : String → List Nat → List Nat)
    (secret : String) (body : List Nat) (signature : String) : Bool :=
  match strStripPre signature "sha256=" with
  | some sig_hex => github_check_hex (mac secret body) sig_hex
  | none => false

/-- `sentry.rs`: `verify_signature` (same algorithm as the GitHub one). -/
def sentry_verify_signature (mac : String → List Nat → List Nat)
    (secret : String) (body : List Nat) (signature : String) : Bool :=
  match strStripPre signature "sha256=" with
  | some sig_hex => github_check_hex (mac secret body) sig_hex
  | none => false

/-- The compare step of the Jira `verify_signature`: `hex::encode` the
computed MAC `tag` and compare with the stripped hex part (length check
plus bytewise equality; the computed side is pure ASCII, so bytewise
equals character-wise). -/
def jira_check_hex (tag : List Nat) (sig_hex : String) : Bool :=
  let expected := sig_hex.data
  let computed := (hexEncode tag).data
  computed.length == expected.length
    && (computed.zip expected).all (fun ab => ab.1 == ab.2)

/-- `jira.rs`: `verify_signature`: strip the `sha256=` lead, then compare
against the hex encoding of the computed MAC. -/
def jira_verify_signature (mac : String → List Nat → List Nat)
    (secret : String) (body : List Nat) (signature : String) : Bool :=
  match strStripPre signature "sha256=" with
  | some sig_hex => jira_check_hex (mac secret body) sig_hex
  | none => false

/-! ## Jira OAuth token manager: `jira_token.rs`

State passing plus an oracle: the Kubernetes secret store is a key/value
map (or absent), the in-memory cache a token with a monotonic expiry
instant (`Nat` seconds); the oracle chooses the outcomes of the external
calls (secret read, OAuth exchange, secret patch/create). -/

/-- `jira_token.rs`: `enum TokenError` (collapsed to its variants). -/
inductive TokenError where
  | kubernetes
  | http
  | noRefreshToken
  | oauth
deriving DecidableEq, Repr

/-- `jira_token.rs`: `struct CachedToken`. -/
structure CachedToken where
  token : String
  expires_at : Nat
deriving DecidableEq, Repr

/-- The durable state (the dynamic Kubernetes secret) together with the
in-memory cache. -/
structure TokenWorld where
  secret : Option (List (String × String))
  cache : Option CachedToken
deriving DecidableEq, Repr

/-- Outcome the environment chooses for the `patch` of the dynamic
secret. -/
inductive PatchOutcome where
  | ok
  | notFound
  | err
deriving DecidableEq, Repr

/-- Outcome the environment chooses for the `create` of the dynamic
secret. -/
inductive CreateOutcome where
  | ok
  | err
deriving DecidableEq, Repr

/-- Oracle for the external calls performed by one refresh. -/
structure RefreshOracle where
  /-- The `secrets_api.get` call fails with a non-404 error. -/
  readFails : Bool
  /-- Result of the `grant_type=refresh_token` exchange:
  `(access_token, refresh_token, expires_in)` or an error. -/
  exchange : Except TokenError (String × String × Nat)
  patchOutcome : PatchOutcome
  createOutcome : CreateOutcome
deriving Repr

/-- `jira_token.rs`: `EXPIRY_BUFFER` (5 minutes, in seconds). -/
def EXPIRY_BUFFER : Nat := 300

/-- `jira_token.rs`: `JiraTokenManager::read_refresh_token`: the dynamic
secret's `refresh-token` entry when readable and non-empty, else the
bootstrap token when non-empty, else `NoRefreshToken`. -/
def read_refresh_token (w : TokenWorld) (o : RefreshOracle)
    (bootstrap_refresh_token : Option String) : Except TokenError String :=
  let fromDynamic : Option String :=
    if o.readFails then none
    else
      match w.secret with
      | some data =>
        match data.lookup "refresh-token" with
        | some t => if t ≠ "" then some t else none
        | none => none
      | none => none
  match fromDynamic with
  | some t => .ok t
  | none =>
    match bootstrap_refresh_token with
    | some t => if t ≠ "" then .ok t else .error .noRefreshToken
    | none => .error .noRefreshToken

/-- `jira_token.rs`: `JiraTokenManager::update_secret`: patch the dynamic
secret with both tokens; on a 404 create it; propagate other errors. -/
def update_secret (w : TokenWorld) (o : RefreshOracle)
    (access_token refresh_token : String) :
    TokenWorld × Except TokenError Unit :=
  let data := [("access-token", access_token),
               ("refresh-token", refresh_token)]
  match o.patchOutcome with
  | .ok => ({ w with secret := some data }, .ok ())
  | .notFound =>
    match o.createOutcome with
    | .ok => ({ w with secret := some data }, .ok ())
    | .err => (w, .error .kubernetes)
  | .err => (w, .error .kubernetes)

/-- `jira_token.rs`: `JiraTokenManager::refresh_and_cache_with_expiry`:
read the refresh token, exchange it, persist both new tokens to the secret,
then (only after a successful write) update the cache and return. -/
def refresh_and_cache_with_expiry (w : TokenWorld) (o : RefreshOracle)
    (bootstrap_refresh_token : Option String) (now : Nat) :
    TokenWorld × Except TokenError (String × Nat) :=
  match read_refresh_token w o bootstrap_refresh_token with
  | .error e => (w, .error e)
  | .ok _ =>
    match o.exchange with
    | .error e => (w, .error e)
    | .ok (access_token, new_refresh_token, expires_in) =>
      match update_secret w o access_token new_refresh_token with
      | (w', .error e) => (w', .error e)
      | (w', .ok _) =>
        ({ w' with cache := some ⟨access_token, now + expires_in⟩ },
         .ok (access_token, expires_in))

/-- `jira_token.rs`: `JiraTokenManager::get_access_token_with_expiry`:
serve from the cache while its expiry is more than `EXPIRY_BUFFER` away,
otherwise refresh. -/
def get_access_token_with_expiry (w : TokenWorld) (o : RefreshOracle)
    (bootstrap_refresh_token : Option String) (now : Nat) :
    TokenWorld × Except TokenError (String × Nat) :=
  match w.cache with
  | some cached =>
    if now + EXPIRY_BUFFER < cached.expires_at then
      (w, .ok (cached.token, cached.expires_at - now))
    else refresh_and_cache_with_expiry w o bootstrap_refresh_token now
  | none => refresh_and_cache_with_expiry w o bootstrap_refresh_token now

/-- `jira_token.rs`: `JiraTokenManager::get_access_token`. -/
def get_access_token (w : TokenWorld) (o : RefreshOracle)
    (bootstrap_refresh_token : Option String) (now : Nat) :
    TokenWorld × Except TokenError String :=
  match get_access_token_with_expiry w o bootstrap_refresh_token now with
  | (w', .ok (t, _)) => (w', .ok t)
  | (w', .error e) => (w', .error e)

/-- The refresh is triggered exactly when no cached token is more than
`EXPIRY_BUFFER` from expiry. -/
def triggersRefresh (w : TokenWorld) (now : Nat) : Prop :=
  ∀ cached, w.cache = some cached → ¬ now + EXPIRY_BUFFER < cached.expires_at

/-- The secret write of a refresh fails: the patch errors, or it 404s and
the create errors. -/
def secretWriteFails (o : RefreshOracle) : Prop :=
  o.patchOutcome = .err ∨ (o.patchOutcome = .notFound ∧ o.createOutcome = .err)

/-! ## Sample inputs for witnesses and counterexamples -/

/-- A qualifying GitLab MR event carrying the `skip-review` label. -/
def mrEventSample : MergeRequestEvent where
  object_kind := "merge_request"
  event_type := some "merge_request"
  user := ⟨1, "Alice", "alice", none⟩
  project := ⟨1, "p", "g/p", "https://gitlab.com/g/p",
    some "https://gitlab.com/g/p.git", none, some "main"⟩
  object_attributes := ⟨1, 42, "T", none, "f", "main", "opened", some "open",
    some false, some false, "https://gitlab.com/g/p/-/merge_requests/42", 1⟩
  labels := some [⟨5, "skip-review"⟩]
  changes := none
  repository := none

/-- A GitHub `synchronize` pull_request event, not a draft. -/
def prEventSample : PullRequestEvent where
  action := "synchronize"
  number := 7
  pull_request := ⟨99, 7, "T", none, "open", some false, ⟨2, "bob"⟩,
    ⟨"feature", "abc", none⟩, ⟨"main", "def", none⟩,
    "https://github.com/o/r/pull/7"⟩
  repository := ⟨1, "r", "o/r", "https://github.com/o/r.git",
    "https://github.com/o/r", some "main"⟩
  sender := ⟨2, "bob"⟩

/-- A Sentry `created` event without an issue category. -/
def sentryEventSample : SentryWebhookEvent where
  action := "created"
  installation := ⟨"uuid-1"⟩
  data := ⟨⟨"12345", "WEB-123", "NullPointerException", "app/foo.php", "php",
    "unresolved", none, some "error", none, "2026-01-01", "2026-01-02",
    some "https://sentry.io/issues/12345", ⟨"1", "web", "Web"⟩⟩⟩
  actor := ⟨"user", some "7", some "Ann"⟩

/-- A Sentry fix payload with short id `WEB-123`. -/
def demoSentryFix : SentryFixPayload :=
  ⟨"12345", "WEB-123", "NullPointerException", "app/foo.php", "php", "error",
   "error", "https://sentry.io/issues/12345", "web", "org",
   "https://gitlab.com/g/p.git", "master", "gitlab", "g/p"⟩

/-- A Review payload used by the queue round-trip witness. -/
def demoReview2 : ReviewPayload :=
  ⟨"https://gitlab.com", "g/p", "7", "https://gitlab.com/g/p.git", "f",
   "main", "T", none, "alice", "open", "gitlab", none⟩

/-! ## Helper lemmas -/

theorem foldl_append_init (l : List String) (s : String) :
    l.foldl (· ++ ·) s = s ++ String.join l := by
  induction l generalizing s with
  | nil => simp [String.join]
  | cons x xs ih =>
    show (xs.foldl (· ++ ·) (s ++ x)) = s ++ String.join (x :: xs)
    rw [ih]
    have : String.join (x :: xs) = x ++ String.join xs := by
      show xs.foldl (· ++ ·) ("" ++ x) = _
      rw [ih]
      simp
    rw [this, String.append_assoc]

theorem join_cons (x : String) (l : List String) :
    String.join (x :: l) = x ++ String.join l := by
  show l.foldl (· ++ ·) ("" ++ x) = _
  rw [foldl_append_init]
  simp

theorem join_append (a b : List String) :
    String.join (a ++ b) = String.join a ++ String.join b := by
  induction a with
  | nil => simp [String.join]
  | cons x xs ih =>
    rw [List.cons_append, join_cons, join_cons, ih, String.append_assoc]

theorem join_flatten (L : List (List String)) :
    String.join L.flatten = String.join (L.map String.join) := by
  induction L with
  | nil => rfl
  | cons l ls ih => rw [List.flatten_cons, join_append, List.map_cons, join_cons, ih]

theorem validHeaderValue_bearer (t : String) :
    validHeaderValue ("Bearer " ++ t) = validHeaderValue t := by
  unfold validHeaderValue
  rw [String.data_append, List.all_append]
  have hb : "Bearer ".data.all validHeaderChar = true := by decide
  rw [hb, Bool.true_and]

theorem join_chunks (a b c : String) (x y z : List String)
    (ha : a = String.join x) (hb : b = String.join y)
    (hc : c = String.join z) :
    a ++ b ++ c = String.join (x ++ y ++ z) := by
  subst ha hb hc
  rw [join_append, join_append]

/-- `extract_text_from_adf` computes exactly the concatenation of the
spec's recursively collected text pieces. -/
theorem extract_eq_pieces (v : Json) :
    extract_text_from_adf v = String.join (specTextPieces v) := by
  have H : ∀ n v, sizeOf v = n →
      extract_text_from_adf v = String.join (specTextPieces v) := by
    intro n
    induction n using Nat.strong_induction_on with
    | _ n ih =>
      intro v hv
      cases v with
      | null => simp [extract_text_from_adf, specTextPieces, String.join]
      | bool b => simp [extract_text_from_adf, specTextPieces, String.join]
      | num m => simp [extract_text_from_adf, specTextPieces, String.join]
      | str s => simp [extract_text_from_adf, specTextPieces, String.join]
      | arr xs =>
        simp only [extract_text_from_adf, specTextPieces]
        rw [foldl_append_init, join_flatten, List.map_map]
        have hmap : xs.attach.map (fun x => extract_text_from_adf x.1) =
            xs.attach.map (String.join ∘ fun x => specTextPieces x.1) := by
          apply List.map_congr_left
          intro a _
          have hlt : sizeOf a.1 < n := by
            have := sizeOf_mem_arr_lt xs a.1 a.2
            omega
          exact ih _ hlt a.1 rfl
        rw [hmap]
        simp
      | obj fields =>
        simp only [extract_text_from_adf, specTextPieces]
        apply join_chunks
        · rcases h1 : fields.lookup "text" with _ | j1
          · rfl
          · cases j1 <;> rfl
        · by_cases hm : isMentionType fields
          · rw [if_pos hm, if_pos hm]
            rcases h2 : fields.lookup "attrs" with _ | a
            · rfl
            · rcases h3 : a.getField "text" with _ | j3
              · simp [h3, String.join]
              · cases j3 <;> simp [h3, String.join, join_cons]
          · rw [if_neg hm, if_neg hm]
            rfl
        · rcases h3 : fields.lookup "content" with _ | j3
          · rfl
          · cases j3 with
            | arr content =>
              simp only
              rw [foldl_append_init, join_flatten, List.map_map]
              have hmap : content.attach.map
                    (fun x => extract_text_from_adf x.1) =
                  content.attach.map
                    (String.join ∘ fun x => specTextPieces x.1) := by
                apply List.map_congr_left
                intro a _
                have hlt : sizeOf a.1 < n := by
                  have := sizeOf_content_elem_lt fields content a.1 h3 a.2
                  omega
                exact ih _ hlt a.1 rfl
              rw [hmap]
              simp
            | null => rfl
            | bool b => rfl
            | num m => rfl
            | str t => rfl
            | obj fs => rfl
  exact H _ v rfl

theorem mapJsonStrs_map_str (l : List String) :
    mapJsonStrs (l.map Json.str) = some l := by
  induction l with
  | nil => rfl
  | cons x xs ih => simp [mapJsonStrs, jsonAsStr, ih]

theorem parse_ser_jobPayload (p : JobPayload) :
    parseJobPayload (serJobPayload p) = some p := by
  cases p with
  | review q =>
    rcases q with ⟨a1, a2, a3, a4, a5, a6, a7, d, a9, a10, a11, tc⟩
    cases d <;> cases tc <;>
      simp [parseJobPayload, serJobPayload, serReviewFields, serOptStr,
        parseReviewPayload, getStr, getOptStr, getStrD, Json.getField,
        List.lookup]
  | sentryFix q =>
    rcases q with ⟨a1, a2, a3, a4, a5, a6, a7, a8, a9, a10, a11, a12, a13, a14⟩
    simp [parseJobPayload, serJobPayload, serSentryFixFields,
      parseSentryFixPayload, getStr, Json.getField, List.lookup]
  | jiraTicket q =>
    rcases q with ⟨a1, a2, a3, d, a5, pr, a7, ls, a9, a10, a11, ta, a13, a14,
      a15, a16⟩
    cases d <;> cases pr <;> cases ta <;>
      simp [parseJobPayload, serJobPayload, serJiraTicketFields, serOptStr,
        parseJiraTicketPayload, getStr, getOptStr, getStrList, jsonAsStr,
        mapJsonStrs_map_str, Json.getField, List.lookup]

theorem parse_ser_queueItem (it : QueueItem) (h : it.attempts < 2 ^ 32) :
    parseQueueItem (serQueueItem it) = some it := by
  rcases it with ⟨id, p, ca, att⟩
  have hatt : att < 2 ^ 32 := h
  simp [parseQueueItem, serQueueItem, getStr, getU32, Json.getField,
    List.lookup, parse_ser_jobPayload]
  split_ifs with hif
  · simp
  · exact absurd (by omega) hif

theorem parse_ser_failedItem (f : FailedItem) (h : f.item.attempts < 2 ^ 32) :
    parseFailedItem (serFailedItem f) = some f := by
  rcases f with ⟨it, er, fa⟩
  simp [parseFailedItem, serFailedItem, getStr, Json.getField, List.lookup,
    parse_ser_queueItem it h]

theorem retryScan_skip (id : String) (l : List Json)
    (h : ∀ j ∈ l, ∀ f, parseFailedItem j = some f → f.item.id ≠ id) :
    retryScan id l = none := by
  induction l with
  | nil => rfl
  | cons j rest ih =>
    have hrest : retryScan id rest = none :=
      ih (fun x hx f hf => h x (List.mem_cons_of_mem _ hx) f hf)
    cases hp : parseFailedItem j with
    | none => simp [retryScan, hp, hrest]
    | some f =>
      have hne := h j (by simp) f hp
      simp [retryScan, hp, hrest, hne]

theorem retryScan_append_hit (id : String) (l : List Json) (f : FailedItem)
    (hskip : retryScan id l = none)
    (hparse : parseFailedItem (serFailedItem f) = some f)
    (hid : f.item.id = id) :
    retryScan id (l ++ [serFailedItem f]) = some (l, f.item) := by
  induction l with
  | nil => simp [retryScan, hparse, hid]
  | cons j rest ih =>
    cases hp : parseFailedItem j with
    | none =>
      simp only [retryScan, hp] at hskip
      simp only [Option.map_eq_none'] at hskip
      simp [retryScan, hp, ih hskip]
    | some g =>
      simp only [retryScan, hp] at hskip
      by_cases hg : g.item.id = id
      · rw [if_pos hg] at hskip
        cases hskip
      · rw [if_neg hg] at hskip
        simp only [Option.map_eq_none'] at hskip
        simp [retryScan, hp, hg, ih hskip]

theorem hexDigitVal_natTo (m : Nat) (h : m < 16) :
    hexDigitVal (natToHexDigitChar m) = some m := by
  interval_cases m <;> decide

theorem hexDecode_encode (bs : List Nat) (h : ∀ b ∈ bs, b < 256) :
    hexDecodeChars (hexEncode bs).data = some bs := by
  induction bs with
  | nil => rfl
  | cons b rest ih =>
    have hb : b < 256 := h b (by simp)
    have h1 : b % 256 / 16 < 16 := by omega
    have h2 : b % 16 < 16 := by omega
    have hr := ih (fun x hx => h x (by simp [hx]))
    show hexDecodeChars (hexEncodeByte b ++ (rest.map hexEncodeByte).flatten) = _
    have hdata : (hexEncode rest).data = (rest.map hexEncodeByte).flatten := rfl
    rw [hdata] at hr
    simp [hexEncodeByte, hexDecodeChars, hexDigitVal_natTo _ h1,
      hexDigitVal_natTo _ h2, hr]
    omega

/-- Changing one character of a hex string preserves its decoding exactly
when the new character is a hex digit of the same value (`hex::decode` is
case-insensitive). -/
theorem hexDecode_set :
    ∀ (n : Nat) (pre : List Char), pre.length = n →
    ∀ (c c' : Char) (suf : List Char) (bs : List Nat),
      hexDecodeChars (pre ++ c :: suf) = some bs →
      (hexDecodeChars (pre ++ c' :: suf) = some bs ↔
        hexDigitVal c' = hexDigitVal c) := by
  intro n
  induction n using Nat.strong_induction_on with
  | _ n ih =>
    intro pre hlen c c' suf bs hdec
    match pre, hlen with
    | [], _ =>
      cases suf with
      | nil => simp [hexDecodeChars] at hdec
      | cons d rest =>
        simp only [List.nil_append] at hdec ⊢
        cases hc : hexDigitVal c with
        | none => simp [hexDecodeChars, hc] at hdec
        | some hcv =>
          cases hd : hexDigitVal d with
          | none => simp [hexDecodeChars, hc, hd] at hdec
          | some hdv =>
            cases hr : hexDecodeChars rest with
            | none => simp [hexDecodeChars, hc, hd, hr] at hdec
            | some r =>
              simp only [hexDecodeChars, hc, hd, hr,
                Option.some.injEq] at hdec
              subst hdec
              cases hc' : hexDigitVal c' with
              | none => simp [hexDecodeChars, hc', hc]
              | some x =>
                simp [hexDecodeChars, hc', hd, hr, hc]
    | [a], _ =>
      simp only [List.cons_append, List.nil_append] at hdec ⊢
      cases ha : hexDigitVal a with
      | none => simp [hexDecodeChars, ha] at hdec
      | some hav =>
        cases hc : hexDigitVal c with
        | none => simp [hexDecodeChars, ha, hc] at hdec
        | some hcv =>
          cases hr : hexDecodeChars suf with
          | none => simp [hexDecodeChars, ha, hc, hr] at hdec
          | some r =>
            simp only [hexDecodeChars, ha, hc, hr,
              Option.some.injEq] at hdec
            subst hdec
            cases hc' : hexDigitVal c' with
            | none => simp [hexDecodeChars, ha, hc', hc]
            | some x =>
              simp [hexDecodeChars, ha, hc', hr, hc]
    | a :: b :: pre', hlen =>
      have hlt : pre'.length < n := by
        simp at hlen
        omega
      simp only [List.cons_append] at hdec ⊢
      cases ha : hexDigitVal a with
      | none => simp [hexDecodeChars, ha] at hdec
      | some hav =>
        cases hb : hexDigitVal b with
        | none => simp [hexDecodeChars, ha, hb] at hdec
        | some hbv =>
          cases hrec : hexDecodeChars (pre' ++ c :: suf) with
          | none => simp [hexDecodeChars, ha, hb, hrec] at hdec
          | some r =>
            simp only [hexDecodeChars, ha, hb, hrec,
              Option.some.injEq] at hdec
            subst hdec
            have hiff := ih pre'.length hlt pre' rfl c c' suf r hrec
            cases hdec' : hexDecodeChars (pre' ++ c' :: suf) with
            | none =>
              simp [hexDecodeChars, ha, hb, hdec']
              intro hcc
              have hx := hiff.mpr hcc
              rw [hdec'] at hx
              simp at hx
            | some r' =>
              rw [hdec'] at hiff
              simp only [Option.some.injEq] at hiff
              simp [hexDecodeChars, ha, hb, hdec', hiff]

theorem strStripPre_eq_some (s p r : String) :
    strStripPre s p = some r ↔ s = p ++ r := by
  unfold strStripPre
  by_cases hp : p.data.isPrefixOf s.data
  · rw [if_pos hp]
    rw [List.isPrefixOf_iff_prefix] at hp
    obtain ⟨t, ht⟩ := hp
    constructor
    · intro h
      have hr : r = ⟨s.data.drop p.data.length⟩ := (Option.some.inj h).symm
      subst hr
      apply String.ext
      show s.data = p.data ++ s.data.drop p.data.length
      rw [← ht, List.drop_left]
    · intro h
      subst h
      rw [String.data_append, List.drop_left]
  · rw [if_neg hp]
    constructor
    · intro h
      cases h
    · intro h
      subst h
      rw [List.isPrefixOf_iff_prefix, String.data_append] at hp
      exact absurd (List.prefix_append _ _) hp

theorem zip_self_all (xs : List Char) :
    (xs.zip xs).all (fun ab => ab.1 == ab.2) = true := by
  induction xs with
  | nil => rfl
  | cons x l ih =>
    simp only [List.zip_cons_cons, List.all_cons, beq_self_eq_true,
      Bool.true_and, ih]

theorem list_eq_of_zip_all (xs ys : List Char) (hl : xs.length = ys.length)
    (hz : (xs.zip ys).all (fun ab => ab.1 == ab.2) = true) : xs = ys := by
  induction xs generalizing ys with
  | nil =>
    cases ys with
    | nil => rfl
    | cons y l => simp at hl
  | cons x l ih =>
    cases ys with
    | nil => simp at hl
    | cons y m =>
      simp only [List.zip_cons_cons, List.all_cons, Bool.and_eq_true,
        beq_iff_eq] at hz
      simp only [List.length_cons, Nat.add_right_cancel_iff] at hl
      rw [hz.1, ih m hl hz.2]

/-- A string that differs from `p ++ t` inside the `p` area is not prefixed
by `p`. -/
theorem prefix_broken :
    ∀ (p pre : List Char) (c c' : Char) (suf t : List Char),
      p ++ t = pre ++ c :: suf → pre.length < p.length → c' ≠ c →
      p.isPrefixOf (pre ++ c' :: suf) = false := by
  intro p
  induction p with
  | nil =>
    intro pre c c' suf t heq hlt hne
    simp at hlt
  | cons x p' ih =>
    intro pre c c' suf t heq hlt hne
    cases pre with
    | nil =>
      simp only [List.nil_append, List.cons_append, List.cons.injEq] at heq
      simp only [List.nil_append]
      rw [List.isPrefixOf_cons₂]
      simp only [Bool.and_eq_false_iff]
      left
      rw [beq_eq_false_iff_ne, heq.1]
      exact fun hh => hne hh.symm
    | cons y pre' =>
      simp only [List.cons_append, List.cons.injEq] at heq
      rw [List.cons_append, List.isPrefixOf_cons₂]
      rw [ih pre' c c' suf t heq.2
        (by simpa using Nat.lt_of_succ_lt_succ (by simpa using hlt)) hne]
      simp

theorem github_check_hex_true_iff (tag : List Nat) (hx : String) :
    github_check_hex tag hx = true ↔ hexDecodeChars hx.data = some tag := by
  unfold github_check_hex
  cases hd : hexDecodeChars hx.data with
  | none =>
    constructor
    · intro h
      exact Bool.noConfusion h
    · intro h
      exact Option.noConfusion h
  | some e =>
    constructor
    · intro h
      exact congrArg some (beq_iff_eq.mp h).symm
    · intro h
      obtain rfl := Option.some.inj h
      exact beq_self_eq_true _

theorem github_verify_true_iff (mac : String → List Nat → List Nat)
    (secret : String) (body : List Nat) (sig : String) :
    github_verify_signature mac secret body sig = true ↔
      ∃ hx, strStripPre sig "sha256=" = some hx ∧
        hexDecodeChars hx.data = some (mac secret body) := by
  unfold github_verify_signature
  cases hs : strStripPre sig "sha256=" with
  | none =>
    constructor
    · intro h
      exact Bool.noConfusion h
    · rintro ⟨hx, hsome, -⟩
      exact Option.noConfusion hsome
  | some hx =>
    rw [github_check_hex_true_iff]
    constructor
    · intro h
      exact ⟨hx, rfl, h⟩
    · rintro ⟨hx', hsome, hdec⟩
      obtain rfl := Option.some.inj hsome
      exact hdec

theorem sentry_eq_github :
    sentry_verify_signature = github_verify_signature := rfl

theorem jira_check_hex_true_iff (tag : List Nat) (hx : String) :
    jira_check_hex tag hx = true ↔ hx = hexEncode tag := by
  unfold jira_check_hex
  simp only [Bool.and_eq_true, beq_iff_eq]
  constructor
  · rintro ⟨hlen, hall⟩
    have he : (hexEncode tag).data = hx.data :=
      list_eq_of_zip_all _ _ hlen hall
    exact (String.ext he).symm
  · intro h
    subst h
    exact ⟨rfl, zip_self_all _⟩

theorem jira_verify_true_iff (mac : String → List Nat → List Nat)
    (secret : String) (body : List Nat) (sig : String) :
    jira_verify_signature mac secret body sig = true ↔
      sig = "sha256=" ++ hexEncode (mac secret body) := by
  unfold jira_verify_signature
  cases hs : strStripPre sig "sha256=" with
  | none =>
    constructor
    · intro h
      exact Bool.noConfusion h
    · intro h
      subst h
      rw [(strStripPre_eq_some _ _ _).mpr rfl] at hs
      exact Option.noConfusion hs
  | some hx =>
    have hs2 := (strStripPre_eq_some sig "sha256=" hx).mp hs
    subst hs2
    rw [jira_check_hex_true_iff]
    constructor
    · intro h
      rw [h]
    · intro h
      have hd := congrArg String.data h
      simp only [String.data_append] at hd
      exact String.ext (List.append_cancel_left hd)

theorem string_append_left_cancel {p a b : String} (h : p ++ a = p ++ b) :
    a = b := by
  have hd := congrArg String.data h
  simp only [String.data_append] at hd
  exact String.ext (List.append_cancel_left hd)

/-! ## Claim theorems -/

/-- C7: for every parsed Sentry issue-alert webhook event, `should_fix`
returns true iff the action is `created` or `unresolved` and the issue
category, when present, is none of `performance`, `cron`, `replay`,
`feedback`, `uptime` (an absent category does not block the fix). -/
theorem C7_sentry_should_fix (e : SentryWebhookEvent) :
    e.should_fix = true ↔
      ((e.action = "created" ∨ e.action = "unresolved") ∧
        ∀ c, e.data.issue.issue_category = some c →
          (c ≠ "performance" ∧ c ≠ "cron" ∧ c ≠ "replay" ∧
            c ≠ "feedback" ∧ c ≠ "uptime")) := by
  cases h : e.data.issue.issue_category with
  | none =>
    simp only [SentryWebhookEvent.should_fix, h]
    split_ifs with h1 <;> simp_all
  | some c =>
    simp only [SentryWebhookEvent.should_fix, h]
    split_ifs with h1 h2 <;> simp_all
    tauto

/-- C5: for every parsed GitLab merge_request webhook event,
`should_review` is true iff the state is `opened` or `reopened`, draft and
work_in_progress are false (absent treated as false), and the action is
`open`, `update` or `reopen`; and a qualifying event carrying the
`skip-review` label is answered `skipped` by the handler, not enqueued. -/
theorem C5_gitlab_should_review (e : MergeRequestEvent)
    (hkind : e.object_kind = "merge_request") :
    (e.should_review = true ↔
      ((e.object_attributes.state = "opened" ∨
          e.object_attributes.state = "reopened") ∧
        e.object_attributes.draft.getD false = false ∧
        e.object_attributes.work_in_progress.getD false = false ∧
        (e.object_attributes.action = some "open" ∨
          e.object_attributes.action = some "update" ∨
          e.object_attributes.action = some "reopen"))) ∧
    (e.should_review = true → e.has_label "skip-review" = true →
      handle_merge_request_event e = .skipped) := by
  constructor
  · simp only [MergeRequestEvent.should_review, hkind]
    split_ifs with h1 h2 h3
    · simp at h1
    · simp only [Bool.false_eq_true, false_iff]
      rintro ⟨hs, -, -, -⟩
      tauto
    · simp only [Bool.false_eq_true, false_iff]
      rintro ⟨-, hd, hw, -⟩
      rcases h3 with h3 | h3 <;> simp_all
    · have hs : e.object_attributes.state = "opened" ∨
          e.object_attributes.state = "reopened" := by tauto
      have hd : e.object_attributes.draft.getD false = false := by
        cases hbd : e.object_attributes.draft.getD false <;> simp_all
      have hw : e.object_attributes.work_in_progress.getD false = false := by
        cases hbw : e.object_attributes.work_in_progress.getD false <;> simp_all
      constructor
      · intro hm
        refine ⟨hs, hd, hw, ?_⟩
        split at hm <;> simp_all
      · rintro ⟨-, -, -, hac | hac | hac⟩ <;> simp [hac]
  · intro hrev hlab
    simp [handle_merge_request_event, hrev, hlab]

/-- C6: for every parsed GitHub pull_request webhook event, a review job is
queued iff the action is `opened`, `synchronize` or `reopened` and the PR's
draft flag is false (absent treated as false); the queued envelope maps
`opened` to `open`, `reopened` to `reopen`, `synchronize` to `update` and
carries platform `github`. -/
theorem C6_github_queue_decision (e : PullRequestEvent) :
    (e.should_review = true ↔
      ((e.action = "opened" ∨ e.action = "synchronize" ∨
          e.action = "reopened") ∧
        e.pull_request.draft.getD false = false)) ∧
    (e.should_review = true →
      github_webhook_handler e = .queued e.toReviewPayload) ∧
    (e.should_review = false → github_webhook_handler e = .ignored) ∧
    e.toReviewPayload.platform = "github" ∧
    (e.action = "opened" → e.toReviewPayload.action = "open") ∧
    (e.action = "reopened" → e.toReviewPayload.action = "reopen") ∧
    (e.action = "synchronize" → e.toReviewPayload.action = "update") := by
  refine ⟨?_, ?_, ?_, ?_, ?_, ?_, ?_⟩
  · simp only [PullRequestEvent.should_review]
    split_ifs with h1 h2
    · simp only [Bool.false_eq_true, false_iff]
      rintro ⟨-, hd⟩
      simp_all
    · refine ⟨fun _ => ⟨h1, ?_⟩, fun _ => rfl⟩
      cases hbd : e.pull_request.draft.getD false <;> simp_all
    · simp only [Bool.false_eq_true, false_iff]
      rintro ⟨ha, -⟩
      exact h1 ha
  · intro h; simp [github_webhook_handler, h]
  · intro h; simp [github_webhook_handler, h]
  · rfl
  · intro h; simp [PullRequestEvent.toReviewPayload, PullRequestEvent.review_action, h]
  · intro h; simp [PullRequestEvent.toReviewPayload, PullRequestEvent.review_action, h]
  · intro h; simp [PullRequestEvent.toReviewPayload, PullRequestEvent.review_action, h]

/-- C9 (amended): with the MAC function as a parameter (the `hmac` crate is
external), all three verifiers accept `sha256=` followed by the lowercase
hex MAC; all three reject any signature lacking the `sha256=` lead; the
Jira verifier accepts exactly the canonical string, so every single-byte
change is rejected; the GitHub and Sentry verifiers accept a signature
differing from the canonical one in a single character iff the change is in
the hex region (position ≥ 7) and the new character is a hex digit of the
same value — a case flip of a hex letter — because `hex::decode` is
case-insensitive. -/
theorem C9_hmac_verification (mac : String → List Nat → List Nat)
    (secret : String) (body : List Nat)
    (hbytes : ∀ b ∈ mac secret body, b < 256) :
    github_verify_signature mac secret body
        ("sha256=" ++ hexEncode (mac secret body)) = true ∧
    sentry_verify_signature mac secret body
        ("sha256=" ++ hexEncode (mac secret body)) = true ∧
    jira_verify_signature mac secret body
        ("sha256=" ++ hexEncode (mac secret body)) = true ∧
    (∀ sig, strStartsWith sig "sha256=" = false →
      github_verify_signature mac secret body sig = false ∧
      sentry_verify_signature mac secret body sig = false ∧
      jira_verify_signature mac secret body sig = false) ∧
    (∀ sig, jira_verify_signature mac secret body sig = true ↔
      sig = "sha256=" ++ hexEncode (mac secret body)) ∧
    (∀ pre c c' suf,
      ("sha256=" ++ hexEncode (mac secret body)).data = pre ++ c :: suf →
      c' ≠ c →
      ((github_verify_signature mac secret body ⟨pre ++ c' :: suf⟩ = true ↔
          (7 ≤ pre.length ∧ hexDigitVal c' = hexDigitVal c)) ∧
        (sentry_verify_signature mac secret body ⟨pre ++ c' :: suf⟩ = true ↔
          (7 ≤ pre.length ∧ hexDigitVal c' = hexDigitVal c)))) := by
  have hgood : github_verify_signature mac secret body
      ("sha256=" ++ hexEncode (mac secret body)) = true :=
    (github_verify_true_iff mac secret body _).mpr
      ⟨hexEncode (mac secret body), (strStripPre_eq_some _ _ _).mpr rfl,
        hexDecode_encode _ hbytes⟩
  refine ⟨hgood, by rw [sentry_eq_github]; exact hgood,
    (jira_verify_true_iff mac secret body _).mpr rfl, ?_, ?_, ?_⟩
  · intro sig h
    have h2 : ("sha256=" : String).data.isPrefixOf sig.data = false := h
    have hnone : strStripPre sig "sha256=" = none := by
      unfold strStripPre
      rw [if_neg (by simp [h2])]
    refine ⟨?_, ?_, ?_⟩
    · unfold github_verify_signature
      rw [hnone]
    · unfold sentry_verify_signature
      rw [hnone]
    · unfold jira_verify_signature
      rw [hnone]
  · intro sig
    exact jira_verify_true_iff mac secret body sig
  · intro pre c c' suf hcanon hne
    rw [String.data_append] at hcanon
    have hPlen : ("sha256=" : String).data.length = 7 := rfl
    by_cases hp : 7 ≤ pre.length
    · have htake : pre.take 7 = ("sha256=" : String).data := by
        have h1 := congrArg (List.take 7) hcanon
        rw [List.take_append_of_le_length hp] at h1
        rw [← hPlen, List.take_left] at h1
        exact h1.symm
      have hsplit : ∀ d : Char,
          pre ++ d :: suf =
            ("sha256=" : String).data ++ (pre.drop 7 ++ d :: suf) := by
        intro d
        conv_lhs => rw [← List.take_append_drop 7 pre]
        rw [htake, List.append_assoc]
      have hH : (hexEncode (mac secret body)).data = pre.drop 7 ++ c :: suf := by
        rw [hsplit c] at hcanon
        exact List.append_cancel_left hcanon
      have hdecH : hexDecodeChars (pre.drop 7 ++ c :: suf) =
          some (mac secret body) := by
        rw [← hH]
        exact hexDecode_encode _ hbytes
      have hsig : (⟨pre ++ c' :: suf⟩ : String) =
          "sha256=" ++ ⟨pre.drop 7 ++ c' :: suf⟩ := by
        apply String.ext
        rw [String.data_append]
        exact hsplit c'
      have hgh : github_verify_signature mac secret body
          ⟨pre ++ c' :: suf⟩ = true ↔
          (7 ≤ pre.length ∧ hexDigitVal c' = hexDigitVal c) := by
        rw [github_verify_true_iff]
        constructor
        · rintro ⟨hx, hstrip, hdec⟩
          have heq := (strStripPre_eq_some _ _ _).mp hstrip
          rw [hsig] at heq
          have hx2 := string_append_left_cancel heq
          rw [← hx2] at hdec
          exact ⟨hp,
            (hexDecode_set (pre.drop 7).length (pre.drop 7) rfl c c' suf
              (mac secret body) hdecH).mp hdec⟩
        · rintro ⟨-, hvals⟩
          refine ⟨⟨pre.drop 7 ++ c' :: suf⟩, ?_, ?_⟩
          · rw [strStripPre_eq_some]
            exact hsig
          · exact (hexDecode_set (pre.drop 7).length (pre.drop 7) rfl c c'
              suf (mac secret body) hdecH).mpr hvals
      exact ⟨hgh, by rw [sentry_eq_github]; exact hgh⟩
    · have hbrk := prefix_broken ("sha256=" : String).data pre c c' suf
        (hexEncode (mac secret body)).data hcanon
        (by rw [hPlen]; omega) hne
      have hnone : strStripPre ⟨pre ++ c' :: suf⟩ "sha256=" = none := by
        unfold strStripPre
        rw [if_neg (by simp [hbrk])]
      have h1 : github_verify_signature mac secret body
          ⟨pre ++ c' :: suf⟩ = false := by
        unfold github_verify_signature
        rw [hnone]
      constructor
      · rw [h1]
        simp [hp]
      · rw [sentry_eq_github, h1]
        simp [hp]

/-- C9 witness: a concrete MAC output (32 bytes of 0xAB) and its canonical
signature are accepted by the GitHub verifier. -/
theorem C9_witness :
    github_verify_signature (fun _ _ => List.replicate 32 171) "secret" []
      ("sha256=" ++ hexEncode (List.replicate 32 171)) = true := by
  exact (C9_hmac_verification (fun _ _ => List.replicate 32 171) "secret" []
    (by decide)).1

/-- C9, counterexample to the claim as stated: for a MAC of 32 `0xAB`
bytes, flipping the case of the first hex letter of the canonical signature
(byte 7, `a` to `A`) is a single-byte change that the GitHub (and Sentry)
verifier still accepts, because `hex::decode` accepts uppercase digits.
The last two conjuncts exhibit the two signatures as equal except for that
one character. -/
theorem C9_counterexample :
    github_verify_signature (fun _ _ => List.replicate 32 171) "secret" []
      "sha256=Abababababababababababababababababababababababababababababababab" = true ∧
    ("sha256=Abababababababababababababababababababababababababababababababab" : String) ≠
      "sha256=" ++ hexEncode (List.replicate 32 171) ∧
    ("sha256=Abababababababababababababababababababababababababababababababab" : String).data =
      ("sha256=" : String).data ++ 'A' :: ("bababababababababababababababababababababababababababababababab" : String).data ∧
    ("sha256=" ++ hexEncode (List.replicate 32 171)).data =
      ("sha256=" : String).data ++ 'a' :: ("bababababababababababababababababababababababababababababababab" : String).data := by
  refine ⟨by decide, by decide, by decide, by decide⟩

/-- C5 witness: the sample qualifying MR with the `skip-review` label is
answered `skipped`. -/
theorem C5_witness : handle_merge_request_event mrEventSample = .skipped := by
  exact (C5_gitlab_should_review mrEventSample rfl).2 (by decide) (by decide)

/-- C6 witness: the sample `synchronize` event is queued with action
`update` and platform `github`. -/
theorem C6_witness :
    github_webhook_handler prEventSample =
      .queued (PullRequestEvent.toReviewPayload prEventSample) ∧
    (PullRequestEvent.toReviewPayload prEventSample).action = "update" ∧
    (PullRequestEvent.toReviewPayload prEventSample).platform = "github" := by
  have h := C6_github_queue_decision prEventSample
  exact ⟨h.2.1 (by decide), h.2.2.2.2.2.2 rfl, h.2.2.2.1⟩

/-- C7 witness: a `created` event with no issue category is fixed. -/
theorem C7_witness : SentryWebhookEvent.should_fix sentryEventSample = true := by
  exact (C7_sentry_should_fix sentryEventSample).mpr
    ⟨Or.inl rfl, fun c hc => nomatch hc⟩

/-- C8, counterexample to the claim as stated: a token of 26 two-byte
characters has fewer than 50 characters and no `glpat-` lead, yet the
builder emits the `Authorization: Bearer` header (the source's
`token.len()` counts UTF-8 bytes, 52 here), not `PRIVATE-TOKEN`. -/
theorem C8_counterexample :
    (String.mk (List.replicate 26 'é')).length = 26 ∧
    strStartsWith (String.mk (List.replicate 26 'é')) "glpat-" = false ∧
    gitlab_auth_headers (String.mk (List.replicate 26 'é')) =
      some [("Authorization", "Bearer " ++ String.mk (List.replicate 26 'é'))] := by
  refine ⟨by decide, by decide, by decide⟩

/-- C8 (amended): for tokens that are valid HTTP header values, the builder
emits exactly one header: `PRIVATE-TOKEN: t` iff `t` starts with `glpat-`
or has UTF-8 byte length below 50, else `Authorization: Bearer t`; for a
token with a character no header value may hold (an ASCII control character
other than tab, or DEL) it returns an error and no header. -/
theorem C8_gitlab_auth_headers (t : String) :
    (validHeaderValue t = true →
      gitlab_auth_headers t =
        some (if strStartsWith t "glpat-" ∨ utf8Len t < 50
              then [("PRIVATE-TOKEN", t)]
              else [("Authorization", "Bearer " ++ t)])) ∧
    (validHeaderValue t = false → gitlab_auth_headers t = none) := by
  constructor
  · intro hv
    unfold gitlab_auth_headers
    simp only [validHeaderValue_bearer, hv, if_true]
    split_ifs <;> rfl
  · intro hv
    unfold gitlab_auth_headers
    simp only [validHeaderValue_bearer, hv]
    split_ifs <;> simp_all

/-- C8 witness: a short ASCII token gets the `PRIVATE-TOKEN` header, a long
opaque ASCII token the bearer header. -/
theorem C8_witness :
    gitlab_auth_headers "shorttoken" = some [("PRIVATE-TOKEN", "shorttoken")] ∧
    gitlab_auth_headers
        "very-long-oauth-access-token-with-at-least-fifty-bytes-0001" =
      some [("Authorization",
        "Bearer very-long-oauth-access-token-with-at-least-fifty-bytes-0001")] := by
  constructor
  · have h := (C8_gitlab_auth_headers "shorttoken").1 (by decide)
    rw [h]
    decide
  · have h := (C8_gitlab_auth_headers
      "very-long-oauth-access-token-with-at-least-fifty-bytes-0001").1 (by decide)
    rw [h]
    decide

/-- C4: the claim's job name `{prefix}-{issue_id}-{uuid_prefix_8}` (via
`JobPayload::job_prefix` and `JobPayload::issue_id`) agrees with the
source's `spawn_job` only on `Review` payloads; the source formats
`claude-review-{item.payload.mr_iid}-{uuid8}`, an expression that is
ill-typed for `SentryFix` and `JiraTicket` payloads (the `JobPayload` enum
has no `mr_iid` field), evaluated here at a concrete SentryFix item. -/
theorem C4_spawn_job_name :
    (∀ item p, item.payload = JobPayload.review p →
      spawn_job_name item = some (spec_job_name item)) ∧
    (∀ item, (∀ p, item.payload ≠ JobPayload.review p) →
      spawn_job_name item = none) ∧
    spawn_job_name
      ⟨"abcd1234-0000-0000", .sentryFix demoSentryFix,
        "2026-01-01T00:00:00Z", 0⟩ = none ∧
    spec_job_name
      ⟨"abcd1234-0000-0000", .sentryFix demoSentryFix,
        "2026-01-01T00:00:00Z", 0⟩ = "claude-sentry-WEB-123-abcd1234" := by
  refine ⟨?_, ?_, rfl, by decide⟩
  · intro item p h
    unfold spawn_job_name spec_job_name
    rw [h]
    rfl
  · intro item hne
    unfold spawn_job_name
    cases hp : item.payload with
    | review p => exact absurd hp (hne p)
    | sentryFix p => rfl
    | jiraTicket p => rfl

/-- C4 witness: a Review item is named as the claim says. -/
theorem C4_witness :
    spawn_job_name
      ⟨"12345678-9abc", JobPayload.review
        ⟨"https://gitlab.com", "g/p", "42", "c", "f", "main", "T", none,
          "alice", "open", "gitlab", none⟩, "t", 0⟩ =
      some (spec_job_name
        ⟨"12345678-9abc", JobPayload.review
          ⟨"https://gitlab.com", "g/p", "42", "c", "f", "main", "T", none,
            "alice", "open", "gitlab", none⟩, "t", 0⟩) := by
  exact C4_spawn_job_name.1 _ _ rfl

/-- C1: a `get_access_token_with_expiry` call that triggers a refresh and
whose upstream exchange returns `(a, r, e)` either returns the new access
token with the secret already holding both new tokens and the cache
updated, or — whenever the secret write fails (patch error, or 404 patch
followed by a failed create) — returns an error and leaves the in-memory
cache unchanged. -/
theorem C1_token_refresh_persistence (w : TokenWorld) (o : RefreshOracle)
    (bootstrap : Option String) (now : Nat) (hmiss : triggersRefresh w now)
    (a r : String) (e : Nat) (hex : o.exchange = .ok (a, r, e)) :
    (∀ t, (get_access_token_with_expiry w o bootstrap now).2 = .ok t →
      t = (a, e) ∧
      (get_access_token_with_expiry w o bootstrap now).1.secret =
        some [("access-token", a), ("refresh-token", r)] ∧
      (get_access_token_with_expiry w o bootstrap now).1.cache =
        some ⟨a, now + e⟩) ∧
    (secretWriteFails o →
      (∃ err, (get_access_token_with_expiry w o bootstrap now).2 = .error err) ∧
      (get_access_token_with_expiry w o bootstrap now).1.cache = w.cache) := by
  have hR : get_access_token_with_expiry w o bootstrap now =
      refresh_and_cache_with_expiry w o bootstrap now := by
    unfold get_access_token_with_expiry
    cases hc : w.cache with
    | none => rfl
    | some cached => simp [hmiss cached hc]
  rw [hR]
  unfold refresh_and_cache_with_expiry
  cases hread : read_refresh_token w o bootstrap with
  | error err =>
    refine ⟨fun t ht => (nomatch ht), fun _ => ⟨⟨err, rfl⟩, rfl⟩⟩
  | ok rt =>
    rw [hex]
    unfold update_secret
    cases hp : o.patchOutcome with
    | ok =>
      refine ⟨fun t ht => ?_, fun hfail => ?_⟩
      · cases ht
        exact ⟨rfl, rfl, rfl⟩
      · rcases hfail with hfail | ⟨hfail, -⟩ <;> rw [hp] at hfail <;> cases hfail
    | notFound =>
      cases hcr : o.createOutcome with
      | ok =>
        refine ⟨fun t ht => ?_, fun hfail => ?_⟩
        · cases ht
          exact ⟨rfl, rfl, rfl⟩
        · rcases hfail with hfail | ⟨-, hfail⟩
          · rw [hp] at hfail
            cases hfail
          · rw [hcr] at hfail
            cases hfail
      | err =>
        refine ⟨fun t ht => (nomatch ht), fun _ => ⟨⟨.kubernetes, rfl⟩, rfl⟩⟩
    | err =>
      refine ⟨fun t ht => (nomatch ht), fun _ => ⟨⟨.kubernetes, rfl⟩, rfl⟩⟩

/-- C1 witness: a first refresh from an empty world (bootstrap token `R0`,
exchange yields `(A1, R1, 3600)`, the patch 404s and the create succeeds)
returns `A1` and persists both new tokens. -/
theorem C1_witness :
    (get_access_token_with_expiry ⟨none, none⟩
        ⟨false, .ok ("A1", "R1", 3600), .notFound, .ok⟩ (some "R0") 0).2 =
      .ok ("A1", 3600) ∧
    (get_access_token_with_expiry ⟨none, none⟩
        ⟨false, .ok ("A1", "R1", 3600), .notFound, .ok⟩ (some "R0") 0).1.secret =
      some [("access-token", "A1"), ("refresh-token", "R1")] ∧
    (get_access_token_with_expiry ⟨none, none⟩
        ⟨false, .ok ("A1", "R1", 3600), .notFound, .ok⟩ (some "R0") 0).1.cache =
      some ⟨"A1", 3600⟩ := by
  have h := C1_token_refresh_persistence ⟨none, none⟩
    ⟨false, .ok ("A1", "R1", 3600), .notFound, .ok⟩ (some "R0") 0
    (fun c hc => nomatch hc) "A1" "R1" 3600 rfl
  have hres : (get_access_token_with_expiry ⟨none, none⟩
      ⟨false, .ok ("A1", "R1", 3600), .notFound, .ok⟩ (some "R0") 0).2 =
      .ok ("A1", 3600) := rfl
  obtain ⟨-, hsec, hcache⟩ := h.1 _ hres
  exact ⟨hres, hsec, hcache⟩

/-- C3, counterexample to the claim as stated: a comment body consisting of
a single mention node whose `attrs.id` is the bot account id (and which has
no `attrs.text`) does contain the account id in its JSON, yet the trigger
predicate answers false — the code checks the account id only against the
extracted text (text leaves and `mention.attrs.text`), never against the
rest of the JSON. -/
theorem C3_counterexample :
    JiraComment.mentions_bot
      ⟨"1", .obj [("type", .str "mention"),
        ("attrs", .obj [("id", .str BOT_ACCOUNT_ID)])], none, none, none⟩ =
      false ∧
    jsonContainsSub
      (.obj [("type", .str "mention"),
        ("attrs", .obj [("id", .str BOT_ACCOUNT_ID)])]) BOT_ACCOUNT_ID =
      true := by
  constructor
  · have hx : extract_text_from_adf
        (.obj [("type", .str "mention"),
          ("attrs", .obj [("id", .str BOT_ACCOUNT_ID)])]) = "" := by
      simp [extract_text_from_adf, isMentionType, Json.getField, List.lookup,
        BOT_ACCOUNT_ID]
    simp only [JiraComment.mentions_bot, JiraComment.body_as_text, hx]
    decide
  · simp only [jsonContainsSub]
    decide

/-- C3 (amended): the Jira comment trigger predicate is true iff the
concatenation of all plain text leaves and all `mention.attrs.text` values,
collected recursively, contains `@claude-agent` case-insensitively, or that
same concatenated text contains the configured bot account id as a
substring. -/
theorem C3_mentions_bot (c : JiraComment) :
    c.mentions_bot = true ↔
      (strContainsSub (strToLower (specExtractedText c.body))
          (strToLower BOT_MENTION) = true ∨
        strContainsSub (specExtractedText c.body) BOT_ACCOUNT_ID = true) := by
  unfold JiraComment.mentions_bot JiraComment.body_as_text specExtractedText
  rw [extract_eq_pieces]
  simp

/-- C2: push `p` (fresh id), mark it processing, mark it failed, then
retry it: `retry_failed` answers true, the tail of pending is the same
item with the same envelope `p` and `attempts = 1` (the single increment
performed by `mark_failed`), and the matching failed entry is gone — the
failed list is back to its initial value.  The freshness hypothesis says no
pre-existing failed entry deserializes to the same (UUID) id. -/
theorem C2_retry_round_trip (st0 : QueueState) (p : JobPayload)
    (id t1 err t2 : String)
    (hfresh : ∀ j ∈ st0.failed, ∀ f, parseFailedItem j = some f →
      f.item.id ≠ id) :
    (Queue.retry_failed
      (Queue.mark_failed
        (Queue.mark_processing (Queue.push st0 p id t1).1 ⟨id, p, t1, 0⟩)
        ⟨id, p, t1, 0⟩ err t2) id).2 = true ∧
    (Queue.retry_failed
      (Queue.mark_failed
        (Queue.mark_processing (Queue.push st0 p id t1).1 ⟨id, p, t1, 0⟩)
        ⟨id, p, t1, 0⟩ err t2) id).1.pending =
      st0.pending ++ [serQueueItem ⟨id, p, t1, 0⟩,
        serQueueItem ⟨id, p, t1, 1⟩] ∧
    (Queue.retry_failed
      (Queue.mark_failed
        (Queue.mark_processing (Queue.push st0 p id t1).1 ⟨id, p, t1, 0⟩)
        ⟨id, p, t1, 0⟩ err t2) id).1.failed = st0.failed := by
  have hp1 : parseFailedItem (serFailedItem ⟨⟨id, p, t1, 1⟩, err, t2⟩) =
      some ⟨⟨id, p, t1, 1⟩, err, t2⟩ :=
    parse_ser_failedItem _ (by norm_num)
  have hskip := retryScan_skip id st0.failed hfresh
  have hhit := retryScan_append_hit id st0.failed ⟨⟨id, p, t1, 1⟩, err, t2⟩
    hskip hp1 rfl
  refine ⟨?_, ?_, ?_⟩ <;>
    simp [Queue.push, Queue.mark_processing, Queue.mark_failed,
      Queue.retry_failed, hhit]

/-- C2 witness: the round trip on an initially empty queue. -/
theorem C2_witness :
    (Queue.retry_failed
      (Queue.mark_failed
        (Queue.mark_processing
          (Queue.push ⟨[], [], []⟩ (.review demoReview2) "id-1" "t1").1
          ⟨"id-1", .review demoReview2, "t1", 0⟩)
        ⟨"id-1", .review demoReview2, "t1", 0⟩ "boom" "t2") "id-1").2 =
      true ∧
    (Queue.retry_failed
      (Queue.mark_failed
        (Queue.mark_processing
          (Queue.push ⟨[], [], []⟩ (.review demoReview2) "id-1" "t1").1
          ⟨"id-1", .review demoReview2, "t1", 0⟩)
        ⟨"id-1", .review demoReview2, "t1", 0⟩ "boom" "t2") "id-1").1.failed =
      [] := by
  have h := C2_retry_round_trip ⟨[], [], []⟩ (.review demoReview2) "id-1"
    "t1" "boom" "t2" (by simp)
  exact ⟨h.1, h.2.2⟩

/-- C10: `Queue::pop` deserializes with `unwrap`: a pending entry written
by `push` or `retry_failed` (a serialized `QueueItem`) is returned intact,
but any head entry that is not a valid serialized Queue Item makes `pop`
panic rather than return an error or skip the entry. -/
theorem C10_pop_panics_on_foreign_entries :
    (∀ st j rest, st.pending = j :: rest → parseQueueItem j = none →
      (Queue.pop st).1 = .panic) ∧
    (∀ st it rest, it.attempts < 2 ^ 32 →
      st.pending = serQueueItem it :: rest → (Queue.pop st).1 = .item it) := by
  constructor
  · intro st j rest hp hj
    simp [Queue.pop, hp, hj]
  · intro st it rest hlt hp
    simp [Queue.pop, hp, parse_ser_queueItem it hlt]

/-- C10 witness: a single foreign JSON object in pending crashes the
consumer; a pushed item pops back intact. -/
theorem C10_witness :
    (Queue.pop ⟨[Json.obj [("foo", Json.str "bar")]], [], []⟩).1 =
      PopResult.panic ∧
    (Queue.pop ⟨[serQueueItem ⟨"id-2", .review demoReview2, "t1", 0⟩], [],
      []⟩).1 = PopResult.item ⟨"id-2", .review demoReview2, "t1", 0⟩ := by
  constructor
  · exact C10_pop_panics_on_foreign_entries.1
      ⟨[Json.obj [("foo", Json.str "bar")]], [], []⟩ _ [] rfl (by decide)
  · exact C10_pop_panics_on_foreign_entries.2
      ⟨[serQueueItem ⟨"id-2", .review demoReview2, "t1", 0⟩], [], []⟩
      ⟨"id-2", .review demoReview2, "t1", 0⟩ [] (by norm_num) rfl

end ClaudeAgent
